import Mathlib

/-
Verification development for the acidAI realtime synthesis engine
(src/services/audioEngine.ts, src/App.tsx constants, harmonic editor).

The TypeScript source is shallowly embedded below:
  * JavaScript numbers that can carry NaN are modelled by `JNum`
    (a rational or NaN, with NaN-propagating arithmetic and the
    JavaScript `Math.max`/`Math.min` NaN behaviour);
  * time and parameter values are exact rationals (`ℚ`), frequency and
    pitch-multiplier computations that use `Math.pow` with fractional
    exponents live in `ℝ` via `Real.rpow`;
  * the stateful scheduler loop and the FX-chain distortion state are
    explicit state-passing functions, the `setTimeout` loop is modelled
    with a fuel parameter.
-/

namespace AcidAI

/-- A JavaScript number: either NaN or an exact rational value. -/
inductive JNum where
  | nan : JNum
  | num : ℚ → JNum
deriving DecidableEq, Repr

/-- Model of the JavaScript `isNaN` test. -/
def JNum.isNaN : JNum → Bool
  | .nan => true
  | .num _ => false

/-- Division of a JS number by a nonzero rational constant; NaN propagates. -/
def JNum.div : JNum → ℚ → JNum
  | .nan, _ => .nan
  | .num q, c => .num (q / c)

/-- Multiplication of a JS number by a rational constant; NaN propagates. -/
def JNum.mul : JNum → ℚ → JNum
  | .nan, _ => .nan
  | .num q, c => .num (q * c)

/-- Subtraction `a - x` with a rational constant on the left; NaN propagates. -/
def JNum.subL (a : ℚ) : JNum → JNum
  | .nan => .nan
  | .num q => .num (a - q)

/-- Model of JavaScript `Math.max(a, x)`: NaN when the argument is NaN. -/
def JNum.maxL (a : ℚ) : JNum → JNum
  | .nan => .nan
  | .num q => .num (max a q)

/-- Model of JavaScript `Math.min(a, x)`: NaN when the argument is NaN. -/
def JNum.minL (a : ℚ) : JNum → JNum
  | .nan => .nan
  | .num q => .num (min a q)

/-- The `EffectParams` interface (src/types): distortion drive and the
delay time / feedback / mix percentages, all 0-100 nominal range. -/
structure EffectParams where
  distortion : JNum
  delayTime : JNum
  delayFeedback : JNum
  delayMix : JNum
deriving DecidableEq, Repr

namespace FXChain

/-- The distortion-relevant state of one `FXChain` instance:
`lastDistortionValue` and the installed waveshaper curve, recorded as the
`k` value the curve was built from (`none` models `curve = null`). The
constructor sets `lastDistortionValue = -999` and a null curve. -/
structure DistState where
  lastDistortionValue : ℚ
  curve : Option ℚ
deriving DecidableEq, Repr

/-- Initial distortion state of a freshly constructed `FXChain`. -/
def initDistState : DistState := ⟨-999, none⟩

/-- Core of `FXChain.update`/`FXChain.setDistortion`: rebuild the curve only
when the drive moved by more than 0.1; at `amount ≤ 0` install `null`
(bypass), otherwise build the curve with `k = amount * 5`. -/
def applyDistortion (st : DistState) (amount : ℚ) : DistState :=
  if 1/10 < |st.lastDistortionValue - amount| then
    if amount ≤ 0 then ⟨amount, none⟩
    else ⟨amount, some (amount * 5)⟩
  else st

/-- Embedding of `FXChain.setDistortion` (audioEngine.ts lines 105-115). A NaN amount
makes the JS comparison `Math.abs(last - amount) > 0.1` false, so the call
is a no-op. -/
def setDistortion (st : DistState) (amount : JNum) : DistState :=
  match amount with
  | .nan => st
  | .num q => applyDistortion st q

/-- The values `FXChain.update` writes to the delay section of the audio
graph (delay time, feedback gain, dry gain, wet gain). -/
structure UpdateResult where
  delayTimeValue : JNum
  feedbackValue : JNum
  dryValue : JNum
  wetValue : JNum
deriving DecidableEq, Repr

/-- Embedding of `FXChain.update` (audioEngine.ts lines 59-87): the distortion amount is
NaN-guarded (`isNaN(params.distortion) ? 0 : params.distortion`) and fed to
the threshold/bypass logic; the delay values are computed without any NaN
guard: `max(0.01, delayTime/100 * 1.0)`, `delayFeedback/100 * 0.95`
(unclamped), `1 - delayMix/100` and `delayMix/100`. -/
def update (st : DistState) (params : EffectParams) : DistState × UpdateResult :=
  let distAmount : ℚ := match params.distortion with
    | .nan => 0
    | .num q => q
  let st2 := applyDistortion st distAmount
  let timeS := (params.delayTime.div 100).mul 1
  let fb := (params.delayFeedback.div 100).mul (19/20)
  let mix := params.delayMix.div 100
  (st2, ⟨JNum.maxL (1/100) timeS, fb, JNum.subL 1 mix, mix⟩)

/-- Embedding of `FXChain.scheduleDelayMix` (lines 89-93). -/
def scheduleDelayMix (mixPercent : JNum) : JNum × JNum :=
  let mix := (JNum.maxL 0 (JNum.minL 100 mixPercent)).div 100
  (JNum.subL 1 mix, mix)

/-- Embedding of `FXChain.scheduleDelayTime` (lines 95-98). -/
def scheduleDelayTime (timePercent : JNum) : JNum :=
  JNum.maxL (1/100) ((timePercent.div 100).mul 1)

/-- Embedding of `FXChain.scheduleDelayFeedback` (lines 100-103): the per-step scheduled
path clamps the feedback gain with `Math.min(0.95, fb/100 * 0.95)`. -/
def scheduleDelayFeedback (fbPercent : JNum) : JNum :=
  JNum.minL (19/20) ((fbPercent.div 100).mul (19/20))

end FXChain

/-- Amplitude left in the feedback delay loop after `n` trips through the
feedback gain `fb`, starting from amplitude `a0`: each cycle multiplies the
circulating signal by the feedback gain once. -/
def delayLoopAmp (fb a0 : ℚ) (n : ℕ) : ℚ := fb ^ n * a0

/-! ## Data model (src/types) -/

/-- The `NoteName` union type: the twelve chromatic note names. -/
inductive NoteName where
  | C | Cs | D | Ds | E | F | Fs | G | Gs | A | As | B
deriving DecidableEq, Repr

/-- Value of `NOTES.indexOf(note)` for the fixed array
`['C','C#','D','D#','E','F','F#','G','G#','A','A#','B']`. -/
def noteIndex : NoteName → ℕ
  | .C => 0 | .Cs => 1 | .D => 2 | .Ds => 3 | .E => 4 | .F => 5
  | .Fs => 6 | .G => 7 | .Gs => 8 | .A => 9 | .As => 10 | .B => 11

/-- The wave shape union type `'sawtooth' | 'square' | 'custom'`. -/
inductive WaveShape where
  | sawtooth | square | custom
deriving DecidableEq, Repr

/-- Per-step synth `Automation` override map: every key optional. -/
structure Automation where
  cutoff : Option ℚ := none
  resonance : Option ℚ := none
  envMod : Option ℚ := none
  decay : Option ℚ := none
  accent : Option ℚ := none
  tuning : Option ℚ := none
  drive : Option ℚ := none
  delayMix : Option ℚ := none
  delayTime : Option ℚ := none
  delayFeedback : Option ℚ := none
  customWave : Option (List JNum) := none
  waveShape : Option WaveShape := none
deriving DecidableEq, Repr

/-- A melodic `Step`. -/
structure Step where
  id : ℕ
  active : Bool
  note : NoteName
  octave : ℤ
  accent : Bool
  slide : Bool
  automation : Option Automation := none
deriving DecidableEq, Repr

/-- Global `SynthParams` for one melodic track. The volume is a `JNum`
because `updateState` NaN-guards it; the remaining numeric fields are read
as plain numbers. -/
structure SynthParams where
  waveShape : WaveShape
  customWave : List JNum
  cutoff : ℚ
  resonance : ℚ
  envMod : ℚ
  decay : ℚ
  accent : ℚ
  volume : JNum
  tempo : ℚ
  tuning : ℚ
deriving DecidableEq, Repr

/-- Per-step `DrumAutomation` override map: every key optional. -/
structure DrumAutomation where
  volume : Option ℚ := none
  tuning : Option ℚ := none
  decay : Option ℚ := none
  pan : Option ℚ := none
  cutoff : Option ℚ := none
  resonance : Option ℚ := none
  distortion : Option ℚ := none
  delayMix : Option ℚ := none
  delayTime : Option ℚ := none
  delayFeedback : Option ℚ := none
deriving DecidableEq, Repr

/-- A percussion `DrumStep`. -/
structure DrumStep where
  id : ℕ
  active : Bool
  automation : Option DrumAutomation := none
deriving DecidableEq, Repr

/-- The `DrumKit` union type `'808' | '909'`. -/
inductive DrumKit where
  | k808 | k909
deriving DecidableEq, Repr

/-- Global `DrumParams`: machine volume and per-voice volumes, NaN-guarded
by `updateState`, hence `JNum`. -/
structure DrumParams where
  volume : JNum
  volBD : JNum
  volSD : JNum
  volCH : JNum
  volOH : JNum
  volCP : JNum
deriving DecidableEq, Repr

/-- A `DrumPattern`: one 16-step lane per drum voice. -/
structure DrumPattern where
  BD : List DrumStep
  SD : List DrumStep
  CH : List DrumStep
  OH : List DrumStep
  CP : List DrumStep
deriving DecidableEq, Repr

/-- The `DrumEffects` map: per-voice effect parameters. -/
structure DrumEffects where
  BD : EffectParams
  SD : EffectParams
  CH : EffectParams
  OH : EffectParams
  CP : EffectParams
deriving DecidableEq, Repr

/-- The `SynthState` record as held by the engine: steps, params, effects. -/
structure SynthState where
  steps : List Step
  params : SynthParams
  effects : EffectParams
deriving DecidableEq, Repr

/-- The `DrumState` record as held by the engine. -/
structure DrumState where
  pattern : DrumPattern
  params : DrumParams
  effects : DrumEffects
  kit : DrumKit
deriving DecidableEq, Repr

/-! ## Automation resolution (audioEngine.ts lines 544-565 and 600-617) -/

/-- The keys `getDrumParam` can be called with (`keyof DrumAutomation`). -/
inductive DrumAutoKey where
  | volume | tuning | decay | pan | cutoff | resonance
  | distortion | delayMix | delayTime | delayFeedback
deriving DecidableEq, Repr

/-- Field lookup `automation[param]` on a `DrumAutomation` map. -/
def DrumAutomation.get (a : DrumAutomation) : DrumAutoKey → Option ℚ
  | .volume => a.volume
  | .tuning => a.tuning
  | .decay => a.decay
  | .pan => a.pan
  | .cutoff => a.cutoff
  | .resonance => a.resonance
  | .distortion => a.distortion
  | .delayMix => a.delayMix
  | .delayTime => a.delayTime
  | .delayFeedback => a.delayFeedback

namespace AudioEngine

/-- Embedding of `AudioEngine.getDrumParam` (lines 544-549): the step's automation value
when the automation map exists and holds the key, else the default. -/
def getDrumParam (step : DrumStep) (param : DrumAutoKey) (defaultVal : ℚ) : ℚ :=
  match step.automation with
  | some a =>
    match a.get param with
    | some v => v
    | none => defaultVal
  | none => defaultVal

end AudioEngine

/-- The numeric synth-parameter keys `playVoice` resolves with
`step.automation?.key ?? globalParams.key` (lines 600-607). -/
inductive SynthAutoKey where
  | cutoff | resonance | envMod | decay | tuning | accent
deriving DecidableEq, Repr

/-- Global value of a resolvable synth key. -/
def SynthParams.get (p : SynthParams) : SynthAutoKey → ℚ
  | .cutoff => p.cutoff
  | .resonance => p.resonance
  | .envMod => p.envMod
  | .decay => p.decay
  | .tuning => p.tuning
  | .accent => p.accent

/-- Step-automation value of a resolvable synth key. -/
def Automation.get (a : Automation) : SynthAutoKey → Option ℚ
  | .cutoff => a.cutoff
  | .resonance => a.resonance
  | .envMod => a.envMod
  | .decay => a.decay
  | .tuning => a.tuning
  | .accent => a.accent

/-- The per-track FX keys resolved at trigger time. -/
inductive FXKey where
  | distortion | delayMix | delayTime | delayFeedback
deriving DecidableEq, Repr

/-- Global effect value of an FX key. -/
def EffectParams.get (e : EffectParams) : FXKey → JNum
  | .distortion => e.distortion
  | .delayMix => e.delayMix
  | .delayTime => e.delayTime
  | .delayFeedback => e.delayFeedback

/-- Drum-step FX override of an FX key. -/
def DrumAutomation.getFX (a : DrumAutomation) : FXKey → Option ℚ
  | .distortion => a.distortion
  | .delayMix => a.delayMix
  | .delayTime => a.delayTime
  | .delayFeedback => a.delayFeedback

/-- Synth-step FX override of an FX key (a synth `Automation` map has no
distortion override, only drive). -/
def Automation.getFX (a : Automation) : FXKey → Option ℚ
  | .distortion => none
  | .delayMix => a.delayMix
  | .delayTime => a.delayTime
  | .delayFeedback => a.delayFeedback

namespace AudioEngine

/-- The `step.automation?.key ?? globalParams.key` pattern of `playVoice`
(lines 601-607) for the numeric synth keys. -/
def playVoiceParam (step : Step) (globalParams : SynthParams) (key : SynthAutoKey) : ℚ :=
  match step.automation with
  | none => globalParams.get key
  | some a =>
    match a.get key with
    | some v => v
    | none => globalParams.get key

/-- The `step.automation?.key ?? globalEffects.key` pattern of `playVoice`
(lines 610-617) for the delay FX keys. -/
def playVoiceFXParam (step : Step) (globalEffects : EffectParams) (key : FXKey) : JNum :=
  match step.automation with
  | none => globalEffects.get key
  | some a =>
    match a.getFX key with
    | some v => .num v
    | none => globalEffects.get key

/-- The `step.automation?.key ?? globalEffects.key` pattern of
`applyDrumAutomation` (lines 551-565). -/
def drumFXParam (step : DrumStep) (globalEffects : EffectParams) (key : FXKey) : JNum :=
  match step.automation with
  | none => globalEffects.get key
  | some a =>
    match a.getFX key with
    | some v => .num v
    | none => globalEffects.get key

end AudioEngine

/-! ## Step scheduler (audioEngine.ts lines 473-510) -/

/-- The scheduler lookahead horizon, 0.25 s. -/
def lookahead : ℚ := 1/4

/-- Step duration `stepDuration = (60.0 / masterTempo) / 4` — a sixteenth note. -/
def stepDuration (tempo : ℚ) : ℚ := 60 / tempo / 4

/-- Tempo fallback `(this.synths[0]?.params.tempo) || 120`: a missing first synth or a
falsy (zero) tempo falls back to 120. -/
def resolveTempo (t : Option ℚ) : ℚ :=
  match t with
  | none => 120
  | some q => if q = 0 then 120 else q

/-- The scheduler's musical clock state. -/
structure SchedState where
  nextNoteTime : ℚ
  currentStepIndex : ℕ
deriving DecidableEq, Repr

/-- The `while (nextNoteTime < currentTime + lookahead)` loop of
`AudioEngine.scheduler` (lines 504-508), fuel-bounded: emits the list of
`(stepIndex, triggerTime)` pairs passed to `scheduleStep`, then advances
`nextNoteTime += stepDuration` and `currentStepIndex = (i + 1) % 16`. -/
def schedulerRun (tempo currentTime : ℚ) : ℕ → SchedState → List (ℕ × ℚ) × SchedState
  | 0, s => ([], s)
  | fuel + 1, s =>
    if s.nextNoteTime < currentTime + lookahead then
      let r := schedulerRun tempo currentTime fuel
        ⟨s.nextNoteTime + stepDuration tempo, (s.currentStepIndex + 1) % 16⟩
      ((s.currentStepIndex, s.nextNoteTime) :: r.1, r.2)
    else ([], s)

/-- The mutable fields of one `AudioEngine` instance that the transport
methods (`start`, `stop`, `scheduler`) and the caches touch or must
preserve. -/
structure EngineState where
  isPlaying : Bool
  currentStepIndex : ℕ
  nextNoteTime : ℚ
  timerID : Option ℕ
  synthChains : List FXChain.DistState
  drumChains : List (List FXChain.DistState)
  periodicWaveCaches : List (Option (List JNum))
  synths : List SynthState
  drums : List DrumState
deriving DecidableEq, Repr

namespace AudioEngine

/-- Embedding of `AudioEngine.scheduler` (lines 498-510): returns unchanged when not
playing; otherwise reads the master tempo from the first synth, runs the
lookahead loop on the musical clock, and re-arms the `setTimeout` timer
(modelled as `timerID = some 0`). -/
def scheduler (fuel : ℕ) (now : ℚ) (s : EngineState) : EngineState :=
  if s.isPlaying then
    let masterTempo := resolveTempo (s.synths.head?.map (fun sy => sy.params.tempo))
    let r := schedulerRun masterTempo now fuel ⟨s.nextNoteTime, s.currentStepIndex⟩
    { s with
        nextNoteTime := r.2.nextNoteTime
        currentStepIndex := r.2.currentStepIndex
        timerID := some 0 }
  else s

/-- Embedding of `AudioEngine.start` (lines 473-483): a no-op when already playing; else
sets `isPlaying`, resets the step index to 0, sets
`nextNoteTime = currentTime + 0.1` and runs the scheduler. -/
def start (fuel : ℕ) (now : ℚ) (s : EngineState) : EngineState :=
  if s.isPlaying then s
  else
    scheduler fuel now
      { s with isPlaying := true, currentStepIndex := 0, nextNoteTime := now + 1/10 }

/-- Embedding of `AudioEngine.stop` (lines 485-491): clears the playing flag and cancels
the pending timer; nothing else. -/
def stop (s : EngineState) : EngineState :=
  { s with isPlaying := false, timerID := none }

end AudioEngine

/-! ## Note-to-frequency mapping (src/App.tsx constants, lines 630-638) -/

/-- The constant `BASE_FREQ_C1 = 32.703`. -/
noncomputable def BASE_FREQ_C1 : ℝ := 32703 / 1000

/-- Embedding of `getFrequency(note, octave)`:
`BASE_FREQ_C1 * 2^(octave - 1) * 2^(NOTES.indexOf(note) / 12)`. -/
noncomputable def getFrequency (note : NoteName) (octave : ℤ) : ℝ :=
  let octaveMultiplier : ℝ := (2 : ℝ) ^ ((octave : ℝ) - 1)
  let noteMultiplier : ℝ := (2 : ℝ) ^ ((noteIndex note : ℝ) / 12)
  BASE_FREQ_C1 * octaveMultiplier * noteMultiplier

/-! ## Percussion pitch multipliers (audioEngine.ts lines 704-936) -/

/-- Value of `Math.pow(2, e)` on an exact rational exponent. -/
noncomputable def pow2 (e : ℚ) : ℝ := (2 : ℝ) ^ (e : ℝ)

namespace AudioEngine

/-- In `playBD`: `pitchMult = Math.pow(2, tuning / 1200 * 12)` (line 715). -/
noncomputable def pitchMultBD (tuning : ℚ) : ℝ := pow2 (tuning / 1200 * 12)

/-- In `playSD`: `pitchMult = Math.pow(2, tuning / 1200 * 12)` (line 771). -/
noncomputable def pitchMultSD (tuning : ℚ) : ℝ := pow2 (tuning / 1200 * 12)

/-- In `playHat`: `pitchMult = Math.pow(2, tuning / 1200 * 24)` (line 850,
"Hats can take more extreme pitch"). -/
noncomputable def pitchMultHat (tuning : ℚ) : ℝ := pow2 (tuning / 1200 * 24)

/-- In `playClap`: `pitchMult = Math.pow(2, tuning / 1200 * 12)` (line 903). -/
noncomputable def pitchMultCP (tuning : ℚ) : ℝ := pow2 (tuning / 1200 * 12)

/-- The oscillator frequency values `playBD` schedules, in source order
(start and ramp-target values; the 909 kit adds the click transient whose
ramp-down target is the fixed constant 10). -/
noncomputable def bdOscFreqs : DrumKit → ℚ → List ℝ
  | .k808, t => [150 * pitchMultBD t, 50 * pitchMultBD t]
  | .k909, t => [200 * pitchMultBD t, 45 * pitchMultBD t, 300 * pitchMultBD t, 10]

/-- The oscillator frequency values `playSD` schedules, in source order. -/
noncomputable def sdOscFreqs : DrumKit → ℚ → List ℝ
  | .k808, t => [250 * pitchMultSD t]
  | .k909, t => [180 * pitchMultSD t, 120 * pitchMultSD t]

/-- The playback rate of the snare's noise buffer source: `playSD` (lines
790-804 and 818-831, both kit paths) never assigns `playbackRate`, so it
stays at the Web Audio default 1.0 for every tuning value. -/
noncomputable def sdNoisePlaybackRate : DrumKit → ℚ → ℝ
  | _, _ => 1

/-- The buffer playback rate `playHat` uses: `1.0 * pitchMult` for either
kit's source buffer. -/
noncomputable def hatPlaybackRate (t : ℚ) : ℝ := 1 * pitchMultHat t

/-- The buffer playback rate `playClap` uses. -/
noncomputable def clapPlaybackRate (t : ℚ) : ℝ := pitchMultCP t

/-- The bandpass centre frequency `playClap` uses:
`(kit === '909' ? 2000 : 1500) * pitchMult`. -/
noncomputable def clapFilterFreq : DrumKit → ℚ → ℝ
  | .k909, t => 2000 * pitchMultCP t
  | .k808, t => 1500 * pitchMultCP t

end AudioEngine

/-! ## Distortion curve (audioEngine.ts lines 117-137) -/

namespace FXChain

/-- The `i`-th input sample of the 256-point curve:
`x = (i * 2) / n_samples - 1`. -/
noncomputable def curveX (i : ℕ) : ℝ := ((i : ℝ) * 2) / 256 - 1

/-- The `i`-th sample `makeDistortionCurve(k)` computes:
`(3 + k) * x * 20 * deg / (Math.PI + k * Math.abs(x))` with
`deg = Math.PI / 180`. -/
noncomputable def makeDistortionCurve (k : ℝ) (i : ℕ) : ℝ :=
  (3 + k) * curveX i * 20 * (Real.pi / 180) / (Real.pi + k * |curveX i|)

end FXChain

/-! ## Harmonic presets (HarmonicEditor) and wave construction -/

/-- The square preset of the harmonic editor:
`harmonics.map((_, i) => (i % 2 === 0) ? 1 / (i + 1) : 0)`. -/
def generateSquare (harmonics : List ℚ) : List ℚ :=
  harmonics.mapIdx (fun i _ => if i % 2 = 0 then 1 / ((i : ℚ) + 1) else 0)

/-- The sawtooth preset: `harmonics.map((_, i) => 1 / (i + 1))`. -/
def generateSaw (harmonics : List ℚ) : List ℚ :=
  harmonics.mapIdx (fun i _ => 1 / ((i : ℚ) + 1))

namespace AudioEngine

/-- The `imag` array `createPeriodicWaveFromHarmonics` builds (lines
434-471): `none` models the `null` returns (empty vector, or fewer than 2
coefficients); index 0 is the DC bin forced to 0 and
`imag[i + 1] = isNaN(h) ? 0 : h`. -/
def createPeriodicWaveImag (harmonics : List JNum) : Option (List JNum) :=
  if harmonics.length < 1 then none
  else
    let imag := JNum.num 0 :: harmonics.map (fun h => if h.isNaN then JNum.num 0 else h)
    if imag.length < 2 then none else some imag

/-- The `updateState` synth track volume (line 389):
`isNaN(volume) ? 0.7 : volume / 100`. -/
def synthVolume (v : JNum) : JNum :=
  if v.isNaN then .num (7/10) else v.div 100

/-- The `updateState` drum machine master volume (line 397):
`isNaN(volume) ? 0.8 : volume / 100`. -/
def drumMasterVolume (v : JNum) : JNum :=
  if v.isNaN then .num (8/10) else v.div 100

/-- The `updateState` per-drum-voice volume (line 408):
`isNaN(val) ? 0.8 : val / 100`. -/
def drumVoiceVolume (v : JNum) : JNum :=
  if v.isNaN then .num (8/10) else v.div 100

end AudioEngine

/-! ## Shared helper lemmas -/

/-- Indexing through `List.mapIdx`: the element at a valid index `i` is the
function applied to `i` and the original element. -/
theorem mapIdx_getD (l : List ℚ) (f : ℕ → ℚ → ℚ) (i : ℕ) (h : i < l.length) :
    (l.mapIdx f).getD i 0 = f i (l.getD i 0) := by
  rw [List.mapIdx_eq_enum_map]
  rw [List.getD_eq_getElem?_getD, List.getD_eq_getElem?_getD]
  rw [List.getElem?_map]
  rw [List.getElem?_eq_getElem (by simpa using h), List.getElem?_eq_getElem h]
  simp [List.getElem_enum, Function.uncurry]

/-! ## Claim theorems -/

/-- C2: for every step, global parameter set and parameter key, the value
resolved at trigger time is the step's automation override for that key
when present, and otherwise the global value — for the drum helper
`getDrumParam`, the synth-voice numeric keys of `playVoice`, and the FX
keys of both `playVoice` and `applyDrumAutomation`. -/
theorem resolve_override_or_global :
    (∀ (step : DrumStep) (key : DrumAutoKey) (d : ℚ),
        AudioEngine.getDrumParam step key d
          = (step.automation.bind (fun a => a.get key)).getD d)
  ∧ (∀ (step : Step) (g : SynthParams) (key : SynthAutoKey),
        AudioEngine.playVoiceParam step g key
          = (step.automation.bind (fun a => a.get key)).getD (g.get key))
  ∧ (∀ (step : Step) (e : EffectParams) (key : FXKey),
        AudioEngine.playVoiceFXParam step e key
          = ((step.automation.bind (fun a => a.getFX key)).map JNum.num).getD (e.get key))
  ∧ (∀ (step : DrumStep) (e : EffectParams) (key : FXKey),
        AudioEngine.drumFXParam step e key
          = ((step.automation.bind (fun a => a.getFX key)).map JNum.num).getD (e.get key)) := by
  refine ⟨?_, ?_, ?_, ?_⟩
  · intro step key d
    unfold AudioEngine.getDrumParam
    rcases step.automation with _ | a
    · rfl
    · rcases hv : a.get key with _ | v <;> simp [hv]
  · intro step g key
    unfold AudioEngine.playVoiceParam
    rcases step.automation with _ | a
    · rfl
    · rcases hv : a.get key with _ | v <;> simp [hv]
  · intro step e key
    unfold AudioEngine.playVoiceFXParam
    rcases step.automation with _ | a
    · rfl
    · rcases hv : a.getFX key with _ | v <;> simp [hv]
  · intro step e key
    unfold AudioEngine.drumFXParam
    rcases step.automation with _ | a
    · rfl
    · rcases hv : a.getFX key with _ | v <;> simp [hv]

/-- C8: the square preset, applied to a 64-slot harmonic vector, yields
`1/(i+1)` at every even 0-based index and `0` at every odd one. -/
theorem generateSquare_spec (h : List ℚ) (hlen : h.length = 64) :
    (generateSquare h).length = 64
  ∧ ∀ i, i < 64 →
      (generateSquare h).getD i 0 = if i % 2 = 0 then 1 / ((i : ℚ) + 1) else 0 := by
  constructor
  · simp [generateSquare, hlen]
  · intro i hi
    rw [generateSquare, mapIdx_getD _ _ _ (by omega)]

/-- Witness for C8 at a concrete 64-element vector and indices 2 and 3. -/
theorem generateSquare_spec_w :
    (List.replicate 64 (0:ℚ)).length = 64
  ∧ (generateSquare (List.replicate 64 0)).getD 2 0 = 1/3
  ∧ (generateSquare (List.replicate 64 0)).getD 3 0 = 0 := by
  refine ⟨by decide, ?_, ?_⟩
  · have h2 := (generateSquare_spec (List.replicate 64 0) (by decide)).2 2 (by decide)
    norm_num at h2 ⊢
    exact h2
  · have h3 := (generateSquare_spec (List.replicate 64 0) (by decide)).2 3 (by decide)
    norm_num at h3 ⊢
    exact h3

/-- C10: `stop` only clears the playing flag and the pending timer; the
step index, the next trigger time, the per-track effect chains, the wave
caches and the pattern/parameter references are untouched. -/
theorem stop_frame (s : EngineState) :
    (AudioEngine.stop s).currentStepIndex = s.currentStepIndex
  ∧ (AudioEngine.stop s).nextNoteTime = s.nextNoteTime
  ∧ (AudioEngine.stop s).synthChains = s.synthChains
  ∧ (AudioEngine.stop s).drumChains = s.drumChains
  ∧ (AudioEngine.stop s).periodicWaveCaches = s.periodicWaveCaches
  ∧ (AudioEngine.stop s).synths = s.synths
  ∧ (AudioEngine.stop s).drums = s.drums
  ∧ (AudioEngine.stop s).isPlaying = false
  ∧ (AudioEngine.stop s).timerID = none :=
  ⟨rfl, rfl, rfl, rfl, rfl, rfl, rfl, rfl, rfl⟩

/-- Characterization of the lookahead loop: the `k`-th emitted trigger has
step index `(i0 + k) % 16` and absolute time `t0 + k * stepDuration`,
independently of the wall-clock time the loop was entered at. -/
theorem schedulerRun_get (tempo ct : ℚ) :
    ∀ (fuel : ℕ) (s : SchedState), s.currentStepIndex < 16 →
      ∀ (k : ℕ), k < (schedulerRun tempo ct fuel s).1.length →
        (schedulerRun tempo ct fuel s).1.getD k (0, 0)
          = ((s.currentStepIndex + k) % 16,
             s.nextNoteTime + (k : ℚ) * stepDuration tempo) := by
  intro fuel
  induction fuel with
  | zero =>
    intro s h16 k hk
    simp [schedulerRun] at hk
  | succ n ih =>
    intro s h16 k hk
    by_cases hc : s.nextNoteTime < ct + lookahead
    · simp only [schedulerRun, if_pos hc] at hk ⊢
      cases k with
      | zero =>
        simp [Nat.mod_eq_of_lt h16]
      | succ k =>
        have hk' : k < (schedulerRun tempo ct n
            ⟨s.nextNoteTime + stepDuration tempo,
             (s.currentStepIndex + 1) % 16⟩).1.length := by
          simpa using hk
        have hrec := ih ⟨s.nextNoteTime + stepDuration tempo,
            (s.currentStepIndex + 1) % 16⟩ (Nat.mod_lt _ (by norm_num)) k hk'
        rw [List.getD_cons_succ, hrec]
        refine Prod.ext ?_ ?_
        · simp only []
          omega
        · simp only []
          push_cast
          ring
    · simp [schedulerRun, if_neg hc] at hk

/-- C1: every run of the scheduler loop advances the trigger time of each
consecutive scheduled trigger by exactly `stepDuration = (60/tempo)/4` and
the step index by 1 modulo 16, so indices stay in `0..15` and repeat every
16 triggers — and the emitted triggers do not depend on the wall-clock
time the loop callback fired at. -/
theorem scheduler_tick_advance (tempo ct : ℚ) (fuel : ℕ) (s : SchedState)
    (h16 : s.currentStepIndex < 16) :
    (∀ k, k + 1 < (schedulerRun tempo ct fuel s).1.length →
        ((schedulerRun tempo ct fuel s).1.getD (k+1) (0, 0)).2
          = ((schedulerRun tempo ct fuel s).1.getD k (0, 0)).2 + stepDuration tempo
      ∧ ((schedulerRun tempo ct fuel s).1.getD (k+1) (0, 0)).1
          = (((schedulerRun tempo ct fuel s).1.getD k (0, 0)).1 + 1) % 16)
  ∧ (∀ k, k < (schedulerRun tempo ct fuel s).1.length →
        ((schedulerRun tempo ct fuel s).1.getD k (0, 0)).1 < 16)
  ∧ (∀ k, k + 16 < (schedulerRun tempo ct fuel s).1.length →
        ((schedulerRun tempo ct fuel s).1.getD (k+16) (0, 0)).1
          = ((schedulerRun tempo ct fuel s).1.getD k (0, 0)).1)
  ∧ (∀ (ct' : ℚ) k, k < (schedulerRun tempo ct fuel s).1.length →
        k < (schedulerRun tempo ct' fuel s).1.length →
        (schedulerRun tempo ct fuel s).1.getD k (0, 0)
          = (schedulerRun tempo ct' fuel s).1.getD k (0, 0)) := by
  refine ⟨?_, ?_, ?_, ?_⟩
  · intro k hk
    rw [schedulerRun_get tempo ct fuel s h16 (k+1) hk,
        schedulerRun_get tempo ct fuel s h16 k (by omega)]
    constructor
    · simp only []
      push_cast
      ring
    · simp only []
      omega
  · intro k hk
    rw [schedulerRun_get tempo ct fuel s h16 k hk]
    exact Nat.mod_lt _ (by norm_num)
  · intro k hk
    rw [schedulerRun_get tempo ct fuel s h16 (k+16) hk,
        schedulerRun_get tempo ct fuel s h16 k (by omega)]
    simp only []
    omega
  · intro ct' k hk hk'
    rw [schedulerRun_get tempo ct fuel s h16 k hk,
        schedulerRun_get tempo ct' fuel s h16 k hk']

/-- Witness for C1 at tempo 120, a loop entered at time 0 with fuel 3 from
the reset state: the second trigger is one sixteenth after the first, and
the first trigger's index is in range. -/
theorem scheduler_tick_advance_w :
    (0:ℕ) < 16
  ∧ ((schedulerRun 120 0 3 ⟨0, 0⟩).1.getD 1 (0, 0)).2
      = ((schedulerRun 120 0 3 ⟨0, 0⟩).1.getD 0 (0, 0)).2 + stepDuration 120
  ∧ ((schedulerRun 120 0 3 ⟨0, 0⟩).1.getD 0 (0, 0)).1 < 16 := by
  refine ⟨by decide, ?_, ?_⟩
  · exact ((scheduler_tick_advance 120 0 3 ⟨0, 0⟩ (by decide)).1 0
      (by norm_num [schedulerRun, lookahead, stepDuration])).1
  · exact (scheduler_tick_advance 120 0 3 ⟨0, 0⟩ (by decide)).2.1 0
      (by norm_num [schedulerRun, lookahead, stepDuration])

/-- C9: `start` while already playing is a no-op (no duplicate scheduling
loop); `start` while stopped resets the step index to 0, sets the next
trigger time to now plus the 0.1 s epsilon and begins scheduling; `stop`
while already stopped is a no-op. -/
theorem start_stop_transport (fuel : ℕ) (now : ℚ) (s : EngineState) :
    (s.isPlaying = true → AudioEngine.start fuel now s = s)
  ∧ (s.isPlaying = false →
      AudioEngine.start fuel now s
        = AudioEngine.scheduler fuel now
            { s with isPlaying := true, currentStepIndex := 0, nextNoteTime := now + 1/10 })
  ∧ (s.isPlaying = false → s.timerID = none → AudioEngine.stop s = s) := by
  refine ⟨?_, ?_, ?_⟩
  · intro h
    simp [AudioEngine.start, h]
  · intro h
    simp [AudioEngine.start, h]
  · intro h1 h2
    cases s
    simp_all [AudioEngine.stop]

/-- Witness for C9 at concrete playing and stopped engine states. -/
theorem start_stop_transport_w :
    ((⟨true, 2, 5, some 0, [], [], [], [], []⟩ : EngineState).isPlaying = true
      ∧ AudioEngine.start 1 0 ⟨true, 2, 5, some 0, [], [], [], [], []⟩
          = ⟨true, 2, 5, some 0, [], [], [], [], []⟩)
  ∧ ((⟨false, 3, 7, none, [], [], [], [], []⟩ : EngineState).isPlaying = false
      ∧ AudioEngine.stop ⟨false, 3, 7, none, [], [], [], [], []⟩
          = ⟨false, 3, 7, none, [], [], [], [], []⟩) := by
  constructor
  · exact ⟨rfl, (start_stop_transport 1 0 _).1 rfl⟩
  · exact ⟨rfl, (start_stop_transport 1 0 _).2.2 rfl rfl⟩

/-- Counterexample to C3 as stated: the global `update` path does not clamp
the feedback gain — a delay-feedback input of 200 (outside the nominal
0-100 range) yields a feedback gain of 1.9, which exceeds 0.95 (and
unity). -/
theorem update_feedback_exceeds_clamp :
    (FXChain.update FXChain.initDistState
        ⟨JNum.num 0, JNum.num 0, JNum.num 200, JNum.num 0⟩).2.feedbackValue
      = JNum.num (19/10)
  ∧ ¬ ((19:ℚ)/10 ≤ 19/20) := by
  constructor
  · show JNum.num ((200:ℚ) / 100 * (19/20)) = JNum.num (19/10)
    norm_num
  · norm_num

/-- C3 (amended): the per-step scheduled path clamps the feedback gain to
at most 0.95 for every input; the global `update` path computes
`fb/100 * 0.95`, which stays at or below 0.95 for inputs in the nominal
0-100 range (but is unclamped outside it); and with the feedback gain at
or below 0.95 and nonnegative, the delay-loop amplitude over repeated
cycles is non-increasing. -/
theorem delay_feedback_stability (q d t m : ℚ) (st : FXChain.DistState)
    (fb a0 : ℚ) (n : ℕ) :
    (FXChain.scheduleDelayFeedback (.num q)
        = .num (min (19/20) (q / 100 * (19/20)))
      ∧ min ((19:ℚ)/20) (q / 100 * (19/20)) ≤ 19/20)
  ∧ (0 ≤ q → q ≤ 100 →
      (FXChain.update st ⟨.num d, .num t, .num q, .num m⟩).2.feedbackValue
          = .num (q / 100 * (19/20))
        ∧ q / 100 * (19/20) ≤ 19/20)
  ∧ (0 ≤ fb → fb ≤ 19/20 → 0 ≤ a0 →
      delayLoopAmp fb a0 (n + 1) ≤ delayLoopAmp fb a0 n) := by
  refine ⟨⟨rfl, min_le_left _ _⟩, ?_, ?_⟩
  · intro h0 h100
    refine ⟨rfl, ?_⟩
    nlinarith
  · intro h0 h1 ha0
    unfold delayLoopAmp
    exact mul_le_mul_of_nonneg_right
      (pow_le_pow_of_le_one h0 (le_trans h1 (by norm_num)) (Nat.le_succ n)) ha0

/-- Witness for C3 at a nominal input of 30 and one delay cycle. -/
theorem delay_feedback_stability_w :
    ((0:ℚ) ≤ 30 ∧ (30:ℚ) ≤ 100)
  ∧ (FXChain.update FXChain.initDistState
        ⟨JNum.num 0, JNum.num 0, JNum.num 30, JNum.num 0⟩).2.feedbackValue
      = JNum.num (30 / 100 * (19/20))
  ∧ delayLoopAmp (19/20) 1 (0 + 1) ≤ delayLoopAmp (19/20) 1 0 := by
  refine ⟨⟨by norm_num, by norm_num⟩, ?_, ?_⟩
  · exact ((delay_feedback_stability 30 0 0 0 FXChain.initDistState (19/20) 1 0).2.1
      (by norm_num) (by norm_num)).1
  · exact (delay_feedback_stability 30 0 0 0 FXChain.initDistState (19/20) 1 0).2.2
      (by norm_num) le_rfl (by norm_num)

/-- Counterexample to C5 as stated: a NaN delay-time input to
`FXChain.update` is not replaced by a default — `Math.max(0.01, NaN)` is
NaN, so a NaN reaches the delay node's time parameter. -/
theorem update_nan_delay_time_reaches_graph :
    ((FXChain.update FXChain.initDistState
        ⟨JNum.num 0, JNum.nan, JNum.num 0, JNum.num 0⟩).2.delayTimeValue).isNaN = true := rfl

/-- C5 (amended): the NaN guards that do exist — a NaN distortion input to
`update` is treated as 0, NaN track/machine/voice volumes in `updateState`
fall back to the 0.7 and 0.8 defaults, and NaN harmonic amplitudes are
zeroed during periodic-wave construction — while the delay time, feedback
and mix inputs of `update` carry no NaN guard. -/
theorem nan_guarded_parameters (v : JNum) (st : FXChain.DistState)
    (p : EffectParams) (hs : List JNum) (l : List JNum) :
    (AudioEngine.synthVolume v).isNaN = false
  ∧ (AudioEngine.drumMasterVolume v).isNaN = false
  ∧ (AudioEngine.drumVoiceVolume v).isNaN = false
  ∧ (FXChain.update st { p with distortion := JNum.nan }).1
      = FXChain.applyDistortion st 0
  ∧ (AudioEngine.createPeriodicWaveImag hs = some l →
      ∀ x ∈ l, x.isNaN = false) := by
  refine ⟨?_, ?_, ?_, rfl, ?_⟩
  · cases v <;> simp [AudioEngine.synthVolume, JNum.isNaN, JNum.div]
  · cases v <;> simp [AudioEngine.drumMasterVolume, JNum.isNaN, JNum.div]
  · cases v <;> simp [AudioEngine.drumVoiceVolume, JNum.isNaN, JNum.div]
  · intro heq x hx
    unfold AudioEngine.createPeriodicWaveImag at heq
    split at heq
    · exact absurd heq (by simp)
    · simp only [] at heq
      split at heq
      · exact absurd heq (by simp)
      · rw [Option.some_inj] at heq
        subst heq
        rcases List.mem_cons.mp hx with h0 | hmem
        · subst h0
          rfl
        · obtain ⟨y, _, rfl⟩ := List.mem_map.mp hmem
          cases y <;> simp [JNum.isNaN]

/-- Witness for C5: a NaN volume and a one-element NaN harmonic vector. -/
theorem nan_guarded_parameters_w :
    AudioEngine.createPeriodicWaveImag [JNum.nan] = some [JNum.num 0, JNum.num 0]
  ∧ (AudioEngine.synthVolume JNum.nan).isNaN = false
  ∧ (JNum.num 0).isNaN = false := by
  refine ⟨rfl, ?_, ?_⟩
  · exact (nan_guarded_parameters JNum.nan FXChain.initDistState
      ⟨JNum.num 0, JNum.num 0, JNum.num 0, JNum.num 0⟩ [JNum.nan]
      [JNum.num 0, JNum.num 0]).1
  · exact (nan_guarded_parameters JNum.nan FXChain.initDistState
      ⟨JNum.num 0, JNum.num 0, JNum.num 0, JNum.num 0⟩ [JNum.nan]
      [JNum.num 0, JNum.num 0]).2.2.2.2 rfl (JNum.num 0) (by simp)

/-- For `x < y`, `x * |y| ≤ y * |x|`; the key sign lemma behind the
monotonicity of the waveshaper curve. -/
theorem curve_mul_abs_le {x y : ℝ} (h : x < y) : x * |y| ≤ y * |x| := by
  rcases le_or_lt 0 x with hx | hx
  · rw [abs_of_nonneg (le_of_lt (lt_of_le_of_lt hx h)), abs_of_nonneg hx]
    exact le_of_eq (mul_comm x y)
  · rcases le_or_lt 0 y with hy | hy
    · rw [abs_of_nonneg hy, abs_of_neg hx]
      have h1 : x * y ≤ 0 := mul_nonpos_of_nonpos_of_nonneg hx.le hy
      have h2 : 0 ≤ y * -x := mul_nonneg hy (by linarith)
      linarith
    · rw [abs_of_neg hy, abs_of_neg hx]
      exact le_of_eq (by ring)

/-- The core sigmoid `x / (pi + k * abs x)` of the distortion curve is
strictly increasing for `k ≥ 0`. -/
theorem distCurve_core_strictMono {k x y : ℝ} (hk : 0 ≤ k) (hxy : x < y) :
    x / (Real.pi + k * |x|) < y / (Real.pi + k * |y|) := by
  have hdx : 0 < Real.pi + k * |x| := by
    have := mul_nonneg hk (abs_nonneg x)
    linarith [Real.pi_pos]
  have hdy : 0 < Real.pi + k * |y| := by
    have := mul_nonneg hk (abs_nonneg y)
    linarith [Real.pi_pos]
  rw [div_lt_div_iff₀ hdx hdy]
  have habs := curve_mul_abs_le hxy
  nlinarith [mul_le_mul_of_nonneg_left habs hk, mul_lt_mul_of_pos_right hxy Real.pi_pos]

/-- The curve sample factors as a positive constant times the core
sigmoid. -/
theorem makeDistortionCurve_eq (k : ℝ) (i : ℕ) :
    FXChain.makeDistortionCurve k i
      = ((3 + k) * 20 * (Real.pi / 180))
          * (FXChain.curveX i / (Real.pi + k * |FXChain.curveX i|)) := by
  unfold FXChain.makeDistortionCurve
  ring

/-- Counterexample to C6 as stated: starting from a fresh chain, setting
drive 0.05 installs a curve; a following call with drive 0 is inside the
0.1 rebuild threshold, so the curve stays installed — the waveshaper is
not bypassed even though the drive is 0. -/
theorem distortion_zero_keeps_curve :
    (FXChain.setDistortion
        (FXChain.setDistortion FXChain.initDistState (JNum.num (1/20)))
        (JNum.num 0)).curve = some (1/4) := by
  have h1 : FXChain.setDistortion FXChain.initDistState (JNum.num (1/20))
      = ⟨1/20, some (1/4)⟩ := by
    show FXChain.applyDistortion FXChain.initDistState (1/20) = _
    unfold FXChain.applyDistortion FXChain.initDistState
    rw [if_pos (by norm_num [abs]), if_neg (by norm_num)]
    norm_num
  rw [h1]
  show (FXChain.applyDistortion ⟨1/20, some (1/4)⟩ 0).curve = _
  unfold FXChain.applyDistortion
  rw [if_neg (by norm_num [abs])]

/-- C6 (amended): a drive-0 call of `setDistortion`/`update` nulls the
curve provided the previous drive differs from 0 by more than the 0.1
rebuild threshold; a call within the threshold is a no-op (the previous
curve, if any, persists); a beyond-threshold positive drive installs the
curve built with `k = drive * 5`; the `update` path applies exactly the
`setDistortion` logic to its NaN-guarded amount; and the installed curve is
a strictly increasing, bounded (saturating) function of the sample index. -/
theorem distortion_bypass_and_curve (st : FXChain.DistState) (a : ℚ) (p : EffectParams) :
    (1/10 < |st.lastDistortionValue - a| → a ≤ 0 →
        (FXChain.setDistortion st (JNum.num a)).curve = none)
  ∧ (|st.lastDistortionValue - a| ≤ 1/10 →
        FXChain.setDistortion st (JNum.num a) = st)
  ∧ (1/10 < |st.lastDistortionValue - a| → 0 < a →
        (FXChain.setDistortion st (JNum.num a)).curve = some (a * 5))
  ∧ (FXChain.update st { p with distortion := JNum.num a }).1
      = FXChain.setDistortion st (JNum.num a)
  ∧ (∀ k : ℝ, 0 ≤ k → ∀ i j : ℕ, i < j → j ≤ 255 →
        FXChain.makeDistortionCurve k i < FXChain.makeDistortionCurve k j)
  ∧ (∀ k : ℝ, 0 ≤ k → ∀ i : ℕ, i ≤ 255 →
        |FXChain.makeDistortionCurve k i| ≤ (3 + k) / 9) := by
  refine ⟨?_, ?_, ?_, rfl, ?_, ?_⟩
  · intro h1 h2
    show (FXChain.applyDistortion st a).curve = none
    unfold FXChain.applyDistortion
    rw [if_pos h1, if_pos h2]
  · intro h
    show FXChain.applyDistortion st a = st
    unfold FXChain.applyDistortion
    rw [if_neg (not_lt.mpr h)]
  · intro h1 h2
    show (FXChain.applyDistortion st a).curve = some (a * 5)
    unfold FXChain.applyDistortion
    rw [if_pos h1, if_neg (not_le.mpr h2)]
  · intro k hk i j hij _
    have hx : FXChain.curveX i < FXChain.curveX j := by
      unfold FXChain.curveX
      have : (i:ℝ) < j := Nat.cast_lt.mpr hij
      linarith
    have h3 : (0:ℝ) < 3 + k := by linarith
    have hC : 0 < (3 + k) * 20 * (Real.pi / 180) :=
      mul_pos (mul_pos h3 (by norm_num)) (by positivity)
    rw [makeDistortionCurve_eq, makeDistortionCurve_eq]
    exact mul_lt_mul_of_pos_left (distCurve_core_strictMono hk hx) hC
  · intro k hk i hi
    have h3 : (0:ℝ) < 3 + k := by linarith
    have hxle : |FXChain.curveX i| ≤ 1 := by
      have hcast : (i:ℝ) ≤ 255 := by exact_mod_cast hi
      have h0 : (0:ℝ) ≤ (i:ℝ) := Nat.cast_nonneg i
      rw [abs_le]
      constructor <;> (unfold FXChain.curveX; nlinarith)
    have hd : 0 < Real.pi + k * |FXChain.curveX i| := by
      have := mul_nonneg hk (abs_nonneg (FXChain.curveX i))
      linarith [Real.pi_pos]
    have hC : (0:ℝ) ≤ (3 + k) * 20 * (Real.pi / 180) :=
      le_of_lt (mul_pos (mul_pos h3 (by norm_num)) (by positivity))
    rw [makeDistortionCurve_eq, abs_mul, abs_div, abs_of_pos hd, abs_of_nonneg hC]
    rw [mul_div_assoc', div_le_iff₀ hd]
    nlinarith [mul_nonneg (mul_nonneg h3.le hk) (abs_nonneg (FXChain.curveX i)),
      mul_nonneg (mul_nonneg h3.le (sub_nonneg.mpr hxle)) Real.pi_pos.le,
      abs_nonneg (FXChain.curveX i)]

/-- Witness for C6: bypass fires on a beyond-threshold drive-0 call, and
the curve at `k = 1` is increasing between the first two samples. -/
theorem distortion_bypass_and_curve_w :
    ((1:ℚ)/10 < |(5:ℚ) - 0|
      ∧ (FXChain.setDistortion (⟨5, some 25⟩ : FXChain.DistState) (JNum.num 0)).curve = none)
  ∧ ((0:ℝ) ≤ 1 ∧ (0:ℕ) < 1 ∧ (1:ℕ) ≤ 255
      ∧ FXChain.makeDistortionCurve 1 0 < FXChain.makeDistortionCurve 1 1) := by
  refine ⟨⟨by norm_num [abs], ?_⟩, by norm_num, by norm_num, by norm_num, ?_⟩
  · exact (distortion_bypass_and_curve ⟨5, some 25⟩ 0
      ⟨JNum.num 0, JNum.num 0, JNum.num 0, JNum.num 0⟩).1 (by norm_num [abs]) le_rfl
  · exact (distortion_bypass_and_curve ⟨5, some 25⟩ 0
      ⟨JNum.num 0, JNum.num 0, JNum.num 0, JNum.num 0⟩).2.2.2.2.1
      1 (by norm_num) 0 1 (by norm_num) (by norm_num)

/-- Counterexample to C4 as stated: the hat program's pitch multiplier at a
tuning override of 50 cents is not the claimed `2^(t/1200 * 12)` — the
hats use the doubled exponent `t/1200 * 24`. -/
theorem hat_multiplier_differs :
    AudioEngine.pitchMultHat 50 ≠ pow2 ((50 : ℚ) / 1200 * 12) := by
  unfold AudioEngine.pitchMultHat pow2
  have h1 : (((50:ℚ) / 1200 * 24 : ℚ) : ℝ) = 1 := by norm_num
  have h2 : (((50:ℚ) / 1200 * 12 : ℚ) : ℝ) = 1/2 := by norm_num
  rw [h1, h2]
  exact ne_of_gt ((Real.rpow_lt_rpow_left_iff (by norm_num)).mpr (by norm_num))

/-- C4 (amended): the bass drum, snare and clap programs compute the same
pitch multiplier `2^(t/1200*12) = 2^(t/100)`; it scales the bass drum's
and snare's oscillator start/ramp frequencies, and the clap's noise
playback rate and bandpass centre — with two exceptions that stay fixed
for every tuning: the 909 kick's click ramp-down target (the constant 10)
and the snare's noise buffer playback rate (never assigned, so it stays at
the default 1.0) — while the hat program uses the doubled exponent
`2^(t/1200*24) = 2^(t/50)` on its buffer playback rate. -/
theorem percussion_pitch_multipliers (t : ℚ) :
    AudioEngine.pitchMultBD t = pow2 (t / 100)
  ∧ AudioEngine.pitchMultSD t = AudioEngine.pitchMultBD t
  ∧ AudioEngine.pitchMultCP t = AudioEngine.pitchMultBD t
  ∧ AudioEngine.pitchMultHat t = pow2 (t / 50)
  ∧ AudioEngine.bdOscFreqs .k808 t
      = [150, 50].map (fun f => f * AudioEngine.pitchMultBD t)
  ∧ AudioEngine.bdOscFreqs .k909 t
      = ([200, 45, 300].map (fun f => f * AudioEngine.pitchMultBD t)) ++ [10]
  ∧ AudioEngine.sdOscFreqs .k808 t
      = [250].map (fun f => f * AudioEngine.pitchMultSD t)
  ∧ AudioEngine.sdOscFreqs .k909 t
      = [180, 120].map (fun f => f * AudioEngine.pitchMultSD t)
  ∧ (∀ kit, AudioEngine.sdNoisePlaybackRate kit t = 1)
  ∧ AudioEngine.hatPlaybackRate t = pow2 (t / 50)
  ∧ AudioEngine.clapPlaybackRate t = pow2 (t / 100)
  ∧ AudioEngine.clapFilterFreq .k909 t = 2000 * pow2 (t / 100)
  ∧ AudioEngine.clapFilterFreq .k808 t = 1500 * pow2 (t / 100) := by
  have hbd : AudioEngine.pitchMultBD t = pow2 (t / 100) :=
    congrArg pow2 (by ring)
  have hhat : AudioEngine.pitchMultHat t = pow2 (t / 50) :=
    congrArg pow2 (by ring)
  refine ⟨hbd, rfl, rfl, hhat, rfl, rfl, rfl, rfl,
    fun kit => by cases kit <;> rfl, ?_, hbd, ?_, ?_⟩
  · unfold AudioEngine.hatPlaybackRate
    rw [one_mul, hhat]
  · show 2000 * AudioEngine.pitchMultCP t = 2000 * pow2 (t / 100)
    rw [show AudioEngine.pitchMultCP t = pow2 (t / 100) from hbd]
  · show 1500 * AudioEngine.pitchMultCP t = 1500 * pow2 (t / 100)
    rw [show AudioEngine.pitchMultCP t = pow2 (t / 100) from hbd]

/-- Relation between `getFrequency` and the combined semitone index: the
frequency is the base frequency times `2` raised to
`(12 * octave + noteIndex) / 12 - 1`. -/
theorem getFrequency_eq (note : NoteName) (octave : ℤ) :
    getFrequency note octave
      = BASE_FREQ_C1
          * (2 : ℝ) ^ ((((octave * 12 + (noteIndex note : ℤ) : ℤ)) : ℝ) / 12 - 1) := by
  unfold getFrequency
  rw [mul_assoc, ← Real.rpow_add (by norm_num : (0:ℝ) < 2)]
  congr 1
  push_cast
  ring

/-- C7: `getFrequency` is strictly increasing in
`octave * 12 + noteIndex note`, `getFrequency C 1` is within 0.1 percent
of 32.7 Hz and `getFrequency C 2` is exactly twice `getFrequency C 1`. -/
theorem frequency_equal_tempered :
    (∀ (n1 n2 : NoteName) (o1 o2 : ℤ),
        o1 * 12 + (noteIndex n1 : ℤ) < o2 * 12 + (noteIndex n2 : ℤ) →
        getFrequency n1 o1 < getFrequency n2 o2)
  ∧ |getFrequency .C 1 - 327/10| ≤ (327/10) * (1/1000)
  ∧ getFrequency .C 2 = 2 * getFrequency .C 1 := by
  have hC1 : getFrequency .C 1 = BASE_FREQ_C1 := by
    unfold getFrequency noteIndex
    norm_num
  refine ⟨?_, ?_, ?_⟩
  · intro n1 n2 o1 o2 h
    rw [getFrequency_eq, getFrequency_eq]
    have hb : (0:ℝ) < BASE_FREQ_C1 := by unfold BASE_FREQ_C1; norm_num
    refine mul_lt_mul_of_pos_left ?_ hb
    rw [Real.rpow_lt_rpow_left_iff (by norm_num : (1:ℝ) < 2)]
    have hcast : ((o1 * 12 + (noteIndex n1 : ℤ) : ℤ) : ℝ)
        < ((o2 * 12 + (noteIndex n2 : ℤ) : ℤ) : ℝ) := by exact_mod_cast h
    linarith
  · rw [hC1]
    unfold BASE_FREQ_C1
    rw [abs_of_nonneg (by norm_num)]
    norm_num
  · rw [hC1]
    unfold getFrequency noteIndex
    norm_num
    unfold BASE_FREQ_C1
    ring_nf

/-- Witness for C7: C1 is below D1 in the semitone order, hence lower in
frequency. -/
theorem frequency_equal_tempered_w :
    ((1:ℤ) * 12 + (noteIndex .C : ℤ) < 1 * 12 + (noteIndex .D : ℤ))
  ∧ getFrequency .C 1 < getFrequency .D 1 := by
  refine ⟨by norm_num [noteIndex], ?_⟩
  exact frequency_equal_tempered.1 .C .D 1 1 (by norm_num [noteIndex])

end AcidAI
